import Mathlib

/-!
# Verification of the ragas custom Jaccard scorers and truncation utility

Shallow embedding of the code in `src/src/tags_jaccard.py`,
`src/src/references_jaccard.py` and `src/src/utils.py`
(`src/code/metrics/utils.py` holds an identical copy of `truncate_context`).

Modelling conventions:
* Python strings are `List Char` (Python indexes, slices and measures
  strings by code point); `str.strip`, `str.lower` and `str.split` are the
  explicit `py_strip`, `py_lower` and `py_split` below. The split
  delimiter is modelled as a single character: both instantiations in the
  repository use one (the default `","` and the tags metric's `"|"`).
* Python floats are modelled as exact rationals `ℚ`; in `ℚ`, `x / 0 = 0`.
* sklearn's `MultiLabelBinarizer` over a class list is modelled as the
  indicator vector of membership, and `jaccard_score(average='samples',
  zero_division=0.0)` on a single pair of binary rows as
  (number of positions where both are 1) / (number of positions where at
  least one is 1), with `0` when the denominator is `0`.
* Token lists are kept generic in the element type where the code is
  (Python lists are heterogeneous; the scorers only compare elements).
-/

namespace Ragas

/-- Python `str.strip()`: drop leading and trailing whitespace. -/
def py_strip (s : List Char) : List Char :=
  ((s.dropWhile Char.isWhitespace).reverse.dropWhile Char.isWhitespace).reverse

/-- Python `str.lower()` (on the ASCII data this repository handles). -/
def py_lower (s : List Char) : List Char :=
  s.map Char.toLower

/-- Python `text.split(sep)` for a one-character separator: split at every
occurrence, keeping empty pieces, so `"".split(",") = [""]` and
`"a,,b".split(",") = ["a", "", "b"]`. -/
def py_split (sep : Char) : List Char → List (List Char)
  | [] => [[]]
  | c :: rest =>
    if c = sep then [] :: py_split sep rest
    else
      match py_split sep rest with
      | [] => [[c]]
      | piece :: pieces => (c :: piece) :: pieces

/-- sklearn `jaccard_score(y_true, y_pred, average='samples',
zero_division=0.0)` restricted to a single pair of binary rows (the only
way the code calls it): |pointwise and| / |pointwise or|, and the
`zero_division` value 0 when the denominator is 0. -/
def jaccard_score_binary (yt yp : List Bool) : ℚ :=
  let inter := (yt.zip yp).countP (fun ab => ab.1 && ab.2)
  let union := (yt.zip yp).countP (fun ab => ab.1 || ab.2)
  if union = 0 then 0 else (inter : ℚ) / (union : ℚ)

/-- `MultiLabelBinarizer(classes=classes).fit_transform([ys])` /
`.transform([ys])`: the binary indicator row of `ys` over `classes`. -/
def binarize {α : Type} [DecidableEq α] (classes : List α) (ys : List α) :
    List Bool :=
  classes.map (fun c => decide (c ∈ ys))

/-- `list(set(y_true + y_pred))` from both `_calculate_sklearn_jaccard`
methods: the deduplicated concatenation (the Python `set` order is
irrelevant to every use, which only counts or tests membership). -/
def all_labels {α : Type} [DecidableEq α] (y_true y_pred : List α) : List α :=
  (y_true ++ y_pred).dedup

/-- `TagsJaccardSimilarityMetric._calculate_sklearn_jaccard`
(src/src/tags_jaccard.py lines 70-109): empty/empty gives 1.0, exactly one
empty gives 0.0, otherwise binarize over the union of labels and call
sklearn's `jaccard_score`. The `try/except` never fires (every step is
total), so it is not represented. -/
def tags_calculate_sklearn_jaccard {α : Type} [DecidableEq α]
    (y_true y_pred : List α) : ℚ :=
  if y_true = [] ∧ y_pred = [] then 1
  else if y_true = [] ∨ y_pred = [] then 0
  else
    let labels := all_labels y_true y_pred
    if labels = [] then 1
    else jaccard_score_binary (binarize labels y_true) (binarize labels y_pred)

/-- `ReferencesJaccardMetric._calculate_sklearn_jaccard`
(src/src/references_jaccard.py lines 93-132): identical to the tags
version except that the empty/empty branch (and the unreachable
empty-labels branch) returns 0.0 instead of 1.0. -/
def refs_calculate_sklearn_jaccard {α : Type} [DecidableEq α]
    (y_true y_pred : List α) : ℚ :=
  if y_true = [] ∧ y_pred = [] then 0
  else if y_true = [] ∨ y_pred = [] then 0
  else
    let labels := all_labels y_true y_pred
    if labels = [] then 0
    else jaccard_score_binary (binarize labels y_true) (binarize labels y_pred)

/-- The naive set-Jaccard definition from the spec ("|A ∩ B| / |A ∪ B|,
where A and B are the deduplicated sets of tokens"): stated over
`List.toFinset`, for comparison with the binarizer-based implementation. -/
def set_jaccard {α : Type} [DecidableEq α] (y_true y_pred : List α) : ℚ :=
  (((y_true.toFinset ∩ y_pred.toFinset).card : ℚ)) /
    ((y_true.toFinset ∪ y_pred.toFinset).card : ℚ)

/-- The configuration fields of `TagsJaccardSimilarityMetric` that affect
scoring (`name` and the column names only route data and are dropped). -/
structure TagsJaccardSimilarityMetric where
  delimiter : Char := ','
  case_sensitive : Bool := false
  strip_whitespace : Bool := true

/-- The metric built by `create_tags_jaccard_metric`
(src/src/tags_jaccard.py lines 143-151): delimiter `"|"`,
`case_sensitive=False`, and the default `strip_whitespace=True`. -/
def create_tags_jaccard_metric : TagsJaccardSimilarityMetric :=
  { delimiter := '|', case_sensitive := false, strip_whitespace := true }

/-- The per-item body of the loop in `_preprocess_text`: optionally strip,
then optionally lowercase. -/
def preprocess_item (m : TagsJaccardSimilarityMetric) (item : List Char) :
    List Char :=
  let item := if m.strip_whitespace then py_strip item else item
  if m.case_sensitive then item else py_lower item

/-- `TagsJaccardSimilarityMetric._preprocess_text`
(src/src/tags_jaccard.py lines 42-68): empty/whitespace-only text gives
`[]`; otherwise split on the delimiter, process each item, and keep the
non-empty results (the Python append-if-truthy loop is the
filter-after-map below). -/
def preprocess_text (m : TagsJaccardSimilarityMetric) (text : List Char) :
    List (List Char) :=
  if text = [] ∨ py_strip text = [] then []
  else ((py_split m.delimiter text).map (preprocess_item m)).filter
    (fun s => decide (s ≠ []))

/-- `TagsJaccardSimilarityMetric._single_turn_ascore`
(src/src/tags_jaccard.py lines 111-140), with the column extraction done:
preprocess both texts and score the truth list against the generated list.
The `try/except` never fires (every step is total). -/
def tags_single_turn_score (m : TagsJaccardSimilarityMetric)
    (generated_text truth_text : List Char) : ℚ :=
  tags_calculate_sklearn_jaccard (preprocess_text m truth_text)
    (preprocess_text m generated_text)

/-- A value found under the `url` or `title` key of a parsed reference
record: either a Python `str`, or any non-string value (on which the
code's `.strip()` call raises `AttributeError`). -/
inductive JVal
  | jstr (s : List Char)
  | jnonstr
deriving DecidableEq

/-- One entry of a parsed reference sequence: a dict (only its `url` and
`title` keys matter, each possibly absent) or any non-dict entry. -/
inductive RefEntry
  | dict (url title : Option JVal)
  | nondict
deriving DecidableEq

/-- The input accepted by `_parse_references`, with the outcome of
`json.loads` / `eval` on strings abstracted (the parsers themselves are
external library code): an empty-or-whitespace string, a string either
parser turns into a sequence of entries, a string on which both parsers
raise, an actual list, or any other value. -/
inductive RefsInput
  | strEmpty
  | strParsed (refs : List RefEntry)
  | strUnparseable
  | list (refs : List RefEntry)
  | other

/-- `ref.get(key, '')` followed by `.strip()`: `none` marks the
`AttributeError` raised when the key holds a non-string value; otherwise
the stripped string (missing key defaults to `''`). -/
def get_stripped : Option JVal → Option (List Char)
  | none => some []
  | some (.jstr s) => some (py_strip s)
  | some .jnonstr => none

/-- `if not case_sensitive: tok = tok.lower()` applied before appending. -/
def norm_token (case_sensitive : Bool) (tok : List Char) : List Char :=
  if case_sensitive then tok else py_lower tok

/-- The `for ref in refs_list` loop of `_parse_references`
(src/src/references_jaccard.py lines 71-91): non-dict entries are skipped;
a dict contributes its stripped `url` then its stripped `title` when
non-empty; a non-string `url` or `title` value raises inside the loop and
the surrounding `except` returns the lists accumulated so far. -/
def extract_refs (case_sensitive : Bool) :
    List RefEntry → List (List Char) → List (List Char) →
      List (List Char) × List (List Char)
  | [], urls, titles => (urls, titles)
  | .nondict :: rest, urls, titles => extract_refs case_sensitive rest urls titles
  | .dict u t :: rest, urls, titles =>
    match get_stripped u with
    | none => (urls, titles)
    | some us =>
      let urls' := if us ≠ [] then urls ++ [norm_token case_sensitive us] else urls
      match get_stripped t with
      | none => (urls', titles)
      | some ts =>
        let titles' := if ts ≠ [] then titles ++ [norm_token case_sensitive ts]
          else titles
        extract_refs case_sensitive rest urls' titles'

/-- `ReferencesJaccardMetric._parse_references`
(src/src/references_jaccard.py lines 41-91): strings parse via
`json.loads` with an `eval` fallback (abstracted into `RefsInput`), a
failure of both is caught and yields the empty accumulators; lists are
used as-is; anything else becomes the empty sequence. -/
def parse_references (case_sensitive : Bool) :
    RefsInput → List (List Char) × List (List Char)
  | .strEmpty => ([], [])
  | .strParsed refs => extract_refs case_sensitive refs [] []
  | .strUnparseable => ([], [])
  | .list refs => extract_refs case_sensitive refs [] []
  | .other => ([], [])

/-- `ReferencesJaccardMetric._single_turn_ascore`
(src/src/references_jaccard.py lines 134-165), with the column extraction
done: parse both sides, score URLs and titles separately, and return the
average. The `try/except` never fires (every step is total). -/
def refs_single_turn_score (case_sensitive : Bool)
    (generated_refs truth_refs : RefsInput) : ℚ :=
  let gen := parse_references case_sensitive generated_refs
  let truth := parse_references case_sensitive truth_refs
  let url_jaccard := refs_calculate_sklearn_jaccard truth.1 gen.1
  let title_jaccard := refs_calculate_sklearn_jaccard truth.2 gen.2
  (url_jaccard + title_jaccard) / 2

/-- `truncated.rfind('.')` (src/src/utils.py line 26): the index of the
last `'.'`, or `none` where Python returns `-1`. -/
def last_period_idx (s : List Char) : Option Nat :=
  match s.reverse.findIdx? (fun c => decide (c = '.')) with
  | some i => some (s.length - 1 - i)
  | none => none

/-- `truncate_context` (src/src/utils.py lines 5-30; an identical copy is
src/code/metrics/utils.py lines 11-36). The float test
`last_period > max_chars * 0.8` is modelled as the exact rational
comparison `5 * last_period > 4 * max_chars`, which agrees with the IEEE
double evaluation for every `max_chars < 2^50`; a `last_period` of `-1`
never passes either test, which is the `none` branch below. -/
def truncate_context (text : List Char) (max_tokens : Nat) : List Char :=
  if text = [] then []
  else
    let max_chars := max_tokens * 4
    if text.length ≤ max_chars then text
    else
      let truncated := text.take max_chars
      match last_period_idx truncated with
      | some lp =>
        if 5 * lp > 4 * max_chars then truncated.take (lp + 1)
        else truncated ++ ['.', '.', '.']
      | none => truncated ++ ['.', '.', '.']

/-! ## Shared lemmas about the binarizer-based Jaccard computation -/

lemma countP_zip_binarize {α : Type} [DecidableEq α] (p : Bool → Bool → Bool)
    (L A B : List α) :
    ((binarize L A).zip (binarize L B)).countP (fun ab => p ab.1 ab.2)
      = (L.filter (fun c => p (decide (c ∈ A)) (decide (c ∈ B)))).length := by
  unfold binarize
  rw [List.zip_map', List.countP_map, List.countP_eq_length_filter]
  rfl

lemma dedup_toFinset {α : Type} [DecidableEq α] (l : List α) :
    l.dedup.toFinset = l.toFinset := by
  ext a
  simp [List.mem_dedup]

lemma all_labels_length {α : Type} [DecidableEq α] (A B : List α) :
    (all_labels A B).length = (A.toFinset ∪ B.toFinset).card := by
  rw [all_labels, ← List.card_toFinset, List.toFinset_append]

lemma all_labels_inter_filter {α : Type} [DecidableEq α] (A B : List α) :
    ((all_labels A B).filter
        (fun c => decide (c ∈ A) && decide (c ∈ B))).length
      = (A.toFinset ∩ B.toFinset).card := by
  have hnd : (all_labels A B).Nodup := List.nodup_dedup (A ++ B)
  rw [← List.toFinset_card_of_nodup (List.Nodup.filter _ hnd),
    List.toFinset_filter]
  congr 1
  ext c
  simp only [Finset.mem_filter, Finset.mem_inter, List.mem_toFinset,
    Bool.and_eq_true, decide_eq_true_eq, all_labels, dedup_toFinset]
  constructor
  · rintro ⟨-, hA, hB⟩
    exact ⟨hA, hB⟩
  · rintro ⟨hA, hB⟩
    exact ⟨List.mem_append.mpr (Or.inl hA), hA, hB⟩

lemma all_labels_union_filter {α : Type} [DecidableEq α] (A B : List α) :
    (all_labels A B).filter (fun c => decide (c ∈ A) || decide (c ∈ B))
      = all_labels A B := by
  refine List.filter_eq_self.mpr (fun c hc => ?_)
  simp only [all_labels, List.mem_dedup, List.mem_append] at hc
  simpa [Bool.or_eq_true, decide_eq_true_eq] using hc

/-- The heart of the refinement: binarizing both token lists over the
union of labels and taking the sklearn sample Jaccard of the two binary
rows computes exactly the naive set Jaccard `|A ∩ B| / |A ∪ B|`
(unconditionally: with both lists empty, both sides are 0 since `ℚ`
division by zero is 0). -/
lemma mlb_jaccard_eq_set {α : Type} [DecidableEq α] (A B : List α) :
    jaccard_score_binary (binarize (all_labels A B) A)
      (binarize (all_labels A B) B) = set_jaccard A B := by
  have hinter := countP_zip_binarize (fun a b => a && b) (all_labels A B) A B
  have hunion := countP_zip_binarize (fun a b => a || b) (all_labels A B) A B
  rw [all_labels_inter_filter] at hinter
  rw [all_labels_union_filter] at hunion
  simp only [jaccard_score_binary, set_jaccard, hinter, hunion,
    all_labels_length A B]
  by_cases h : (A.toFinset ∪ B.toFinset).card = 0
  · simp [h]
  · simp [h]

/-- Normal form of the tags `_calculate_sklearn_jaccard`: edge branches,
then the naive set Jaccard. -/
lemma tags_calc_eq {α : Type} [DecidableEq α] (A B : List α) :
    tags_calculate_sklearn_jaccard A B
      = if A = [] ∧ B = [] then 1
        else if A = [] ∨ B = [] then 0
        else set_jaccard A B := by
  rw [tags_calculate_sklearn_jaccard]
  by_cases hab : A = [] ∧ B = []
  · simp [hab]
  · rw [if_neg hab, if_neg hab]
    by_cases hor : A = [] ∨ B = []
    · simp [hor]
    · rw [if_neg hor, if_neg hor]
      have hlab : all_labels A B ≠ [] := by
        simp only [all_labels, ne_eq, List.dedup_eq_nil, List.append_eq_nil]
        rintro ⟨hA, -⟩
        exact hor (Or.inl hA)
      rw [if_neg hlab]
      exact mlb_jaccard_eq_set A B

/-- Normal form of the references `_calculate_sklearn_jaccard`: edge
branches (0 instead of 1 for empty/empty), then the naive set Jaccard. -/
lemma refs_calc_eq {α : Type} [DecidableEq α] (A B : List α) :
    refs_calculate_sklearn_jaccard A B
      = if A = [] ∨ B = [] then 0
        else set_jaccard A B := by
  rw [refs_calculate_sklearn_jaccard]
  by_cases hor : A = [] ∨ B = []
  · by_cases hab : A = [] ∧ B = [] <;> simp [hab, hor]
  · have hab : ¬(A = [] ∧ B = []) := fun h => hor (Or.inl h.1)
    rw [if_neg hab, if_neg hor, if_neg hor]
    have hlab : all_labels A B ≠ [] := by
      simp only [all_labels, ne_eq, List.dedup_eq_nil, List.append_eq_nil]
      rintro ⟨hA, -⟩
      exact hor (Or.inl hA)
    rw [if_neg hlab]
    exact mlb_jaccard_eq_set A B

/-- The set Jaccard is symmetric. -/
lemma set_jaccard_comm {α : Type} [DecidableEq α] (A B : List α) :
    set_jaccard A B = set_jaccard B A := by
  rw [set_jaccard, set_jaccard, Finset.inter_comm, Finset.union_comm]

/-- The set Jaccard of a non-empty list against itself is 1. -/
lemma set_jaccard_self {α : Type} [DecidableEq α] (A : List α) (h : A ≠ []) :
    set_jaccard A A = 1 := by
  rw [set_jaccard, Finset.inter_self, Finset.union_self]
  have hcard : A.toFinset.card ≠ 0 := by
    simp only [ne_eq, Finset.card_eq_zero, List.toFinset_eq_empty_iff]
    exact h
  rw [div_self (by exact_mod_cast hcard)]

/-- The references Jaccard of anything against an empty token list is 0. -/
lemma refs_calc_right_empty {α : Type} [DecidableEq α] (A : List α) :
    refs_calculate_sklearn_jaccard A [] = 0 := by
  rw [refs_calc_eq, if_pos (Or.inr rfl)]

/-- The references Jaccard of an empty token list against anything is 0. -/
lemma refs_calc_left_empty {α : Type} [DecidableEq α] (A : List α) :
    refs_calculate_sklearn_jaccard [] A = 0 := by
  rw [refs_calc_eq, if_pos (Or.inl rfl)]

/-! ## The claims -/

/-- C1: for every pair of non-empty token lists, the binarizer-based
Jaccard computation of both scorers (binarize over the union of labels,
then sklearn `jaccard_score`) returns exactly |A ∩ B| / |A ∪ B| over the
deduplicated token sets: the implementation is equivalent to the naive
set-Jaccard definition. -/
theorem claim_C1_binarizer_equals_set_jaccard {α : Type} [DecidableEq α]
    (y_true y_pred : List α) (h1 : y_true ≠ []) (h2 : y_pred ≠ []) :
    tags_calculate_sklearn_jaccard y_true y_pred = set_jaccard y_true y_pred ∧
      refs_calculate_sklearn_jaccard y_true y_pred
        = set_jaccard y_true y_pred := by
  constructor
  · rw [tags_calc_eq, if_neg (fun h => h1 h.1), if_neg (not_or.mpr ⟨h1, h2⟩)]
  · rw [refs_calc_eq, if_neg (not_or.mpr ⟨h1, h2⟩)]

/-- Witness for C1 at the concrete pair `["a"]`, `["a", "b"]`. -/
theorem claim_C1_witness :
    tags_calculate_sklearn_jaccard ([['a']] : List (List Char)) [['a'], ['b']]
        = set_jaccard ([['a']] : List (List Char)) [['a'], ['b']] ∧
      refs_calculate_sklearn_jaccard ([['a']] : List (List Char)) [['a'], ['b']]
        = set_jaccard ([['a']] : List (List Char)) [['a'], ['b']] :=
  claim_C1_binarizer_equals_set_jaccard [['a']] [['a'], ['b']]
    (by decide) (by decide)

/-- C2: for the delimited-text (tags) scorer, if both preprocessed token
lists are empty the score is exactly 1.0, and if exactly one of the two is
empty the score is exactly 0.0. -/
theorem claim_C2_tags_empty_policy (m : TagsJaccardSimilarityMetric)
    (generated_text truth_text : List Char) :
    (preprocess_text m generated_text = [] ∧ preprocess_text m truth_text = [] →
      tags_single_turn_score m generated_text truth_text = 1) ∧
    (preprocess_text m generated_text = [] ∧ preprocess_text m truth_text ≠ [] →
      tags_single_turn_score m generated_text truth_text = 0) ∧
    (preprocess_text m generated_text ≠ [] ∧ preprocess_text m truth_text = [] →
      tags_single_turn_score m generated_text truth_text = 0) := by
  unfold tags_single_turn_score
  rw [tags_calc_eq]
  refine ⟨fun ⟨hg, ht⟩ => ?_, fun ⟨hg, ht⟩ => ?_, fun ⟨hg, ht⟩ => ?_⟩
  · rw [if_pos ⟨ht, hg⟩]
  · rw [if_neg (fun h => ht h.1), if_pos (Or.inr hg)]
  · rw [if_neg (fun h => hg h.2), if_pos (Or.inl ht)]

/-- Witness for C2 at the concrete texts `""` and `"a"`. -/
theorem claim_C2_witness :
    tags_single_turn_score {} [] [] = 1 ∧
      tags_single_turn_score {} [] ['a'] = 0 ∧
      tags_single_turn_score {} ['a'] [] = 0 :=
  ⟨(claim_C2_tags_empty_policy {} [] []).1 ⟨by decide, by decide⟩,
    (claim_C2_tags_empty_policy {} [] ['a']).2.1 ⟨by decide, by decide⟩,
    (claim_C2_tags_empty_policy {} ['a'] []).2.2 ⟨by decide, by decide⟩⟩

/-- C3: the structured-reference scorer gives 0.0 to two empty token
lists (and to the score of two empty reference lists), while the
delimited-text scorer gives 1.0 to two empty texts: the asymmetry of the
empty/empty policies. -/
theorem claim_C3_empty_empty_asymmetry :
    refs_calculate_sklearn_jaccard ([] : List (List Char)) [] = 0 ∧
      refs_single_turn_score false (.list []) (.list []) = 0 ∧
      tags_single_turn_score {} [] [] = 1 := by
  refine ⟨rfl, ?_, by decide⟩
  simp [refs_single_turn_score, parse_references, extract_refs,
    refs_calculate_sklearn_jaccard]

/-- C5: a side whose serialized representation neither JSON parsing nor
the literal-expression fallback can read parses to empty token lists, and
the resulting score is the default 0.0 whatever the other side holds (the
embedding is a total function: no exception reaches the caller). -/
theorem claim_C5_unparseable_defaults_to_zero (cs : Bool) (side : RefsInput) :
    parse_references cs .strUnparseable = ([], []) ∧
      refs_single_turn_score cs .strUnparseable side = 0 ∧
      refs_single_turn_score cs side .strUnparseable = 0 := by
  refine ⟨rfl, ?_, ?_⟩
  · simp only [refs_single_turn_score, parse_references,
      refs_calc_right_empty]
    norm_num
  · simp only [refs_single_turn_score, parse_references,
      refs_calc_left_empty]
    norm_num

/-- C7: both Jaccard computations, and both full scorers, are symmetric
in their two arguments, empty edge cases included. -/
theorem claim_C7_symmetry {α : Type} [DecidableEq α] (A B : List α)
    (m : TagsJaccardSimilarityMetric) (g t : List Char) (cs : Bool)
    (gr tr : RefsInput) :
    tags_calculate_sklearn_jaccard A B = tags_calculate_sklearn_jaccard B A ∧
      refs_calculate_sklearn_jaccard A B = refs_calculate_sklearn_jaccard B A ∧
      tags_single_turn_score m g t = tags_single_turn_score m t g ∧
      refs_single_turn_score cs gr tr = refs_single_turn_score cs tr gr := by
  have htags : ∀ (X Y : List (List Char)),
      tags_calculate_sklearn_jaccard X Y = tags_calculate_sklearn_jaccard Y X := by
    intro X Y
    by_cases hX : X = [] <;> by_cases hY : Y = [] <;>
      simp [tags_calc_eq, hX, hY, set_jaccard_comm X Y]
  have hrefs : ∀ {β : Type} [DecidableEq β] (X Y : List β),
      refs_calculate_sklearn_jaccard X Y = refs_calculate_sklearn_jaccard Y X := by
    intro β _ X Y
    by_cases hX : X = [] <;> by_cases hY : Y = [] <;>
      simp [refs_calc_eq, hX, hY, set_jaccard_comm X Y]
  refine ⟨?_, hrefs A B, ?_, ?_⟩
  · by_cases hX : A = [] <;> by_cases hY : B = [] <;>
      simp [tags_calc_eq, hX, hY, set_jaccard_comm A B]
  · unfold tags_single_turn_score
    exact htags _ _
  · simp only [refs_single_turn_score]
    rw [hrefs, hrefs (parse_references cs gr).2]

/-- C8: scoring a non-empty token list against itself gives exactly 1.0
in both Jaccard computations, and a text whose preprocessed token list is
non-empty scores 1.0 against itself in the tags scorer. -/
theorem claim_C8_identity {α : Type} [DecidableEq α] (A : List α)
    (m : TagsJaccardSimilarityMetric) (text : List Char) (hA : A ≠ []) :
    (tags_calculate_sklearn_jaccard A A = 1 ∧
      refs_calculate_sklearn_jaccard A A = 1) ∧
    (preprocess_text m text ≠ [] → tags_single_turn_score m text text = 1) := by
  have htag : ∀ {β : Type} [DecidableEq β] (X : List β), X ≠ [] →
      tags_calculate_sklearn_jaccard X X = 1 := by
    intro β _ X hX
    rw [tags_calc_eq, if_neg (fun h => hX h.1), if_neg (not_or.mpr ⟨hX, hX⟩)]
    exact set_jaccard_self X hX
  refine ⟨⟨htag A hA, ?_⟩, fun h => ?_⟩
  · rw [refs_calc_eq, if_neg (not_or.mpr ⟨hA, hA⟩)]
    exact set_jaccard_self A hA
  · unfold tags_single_turn_score
    exact htag _ h

/-- Witness for C8 at the concrete token list `["a"]` and text `"a"`. -/
theorem claim_C8_witness :
    (tags_calculate_sklearn_jaccard ([['a']] : List (List Char)) [['a']] = 1 ∧
      refs_calculate_sklearn_jaccard ([['a']] : List (List Char)) [['a']] = 1) ∧
      tags_single_turn_score {} ['a'] ['a'] = 1 := by
  have h := claim_C8_identity ([['a']] : List (List Char)) {} ['a'] (by decide)
  exact ⟨h.1, h.2 (by decide)⟩

end Ragas

namespace Ragas

set_option maxRecDepth 4000 in
/-- C4: the structured-reference score is the arithmetic mean of the
URL-set Jaccard and the title-set Jaccard; on truth
`[{"url": "a.com", "title": "T1"}]` against generated
`[{"url": "a.com", "title": "T2"}]` the URL Jaccard is 1.0, the title
Jaccard is 0.0, and the final score is 0.5. -/
theorem claim_C4_mean_of_url_and_title :
    (∀ (cs : Bool) (generated_refs truth_refs : RefsInput),
      refs_single_turn_score cs generated_refs truth_refs
        = (refs_calculate_sklearn_jaccard (parse_references cs truth_refs).1
              (parse_references cs generated_refs).1
            + refs_calculate_sklearn_jaccard (parse_references cs truth_refs).2
              (parse_references cs generated_refs).2) / 2) ∧
    refs_calculate_sklearn_jaccard
        (parse_references false (.list [.dict (some (.jstr ("a.com".toList)))
          (some (.jstr ("T1".toList)))])).1
        (parse_references false (.list [.dict (some (.jstr ("a.com".toList)))
          (some (.jstr ("T2".toList)))])).1 = 1 ∧
    refs_calculate_sklearn_jaccard
        (parse_references false (.list [.dict (some (.jstr ("a.com".toList)))
          (some (.jstr ("T1".toList)))])).2
        (parse_references false (.list [.dict (some (.jstr ("a.com".toList)))
          (some (.jstr ("T2".toList)))])).2 = 0 ∧
    refs_single_turn_score false
        (.list [.dict (some (.jstr ("a.com".toList))) (some (.jstr ("T2".toList)))])
        (.list [.dict (some (.jstr ("a.com".toList))) (some (.jstr ("T1".toList)))])
      = 1 / 2 := by
  have hg : parse_references false (.list [.dict (some (.jstr ("a.com".toList)))
      (some (.jstr ("T2".toList)))])
      = ([['a', '.', 'c', 'o', 'm']], [['t', '2']]) := by decide
  have ht : parse_references false (.list [.dict (some (.jstr ("a.com".toList)))
      (some (.jstr ("T1".toList)))])
      = ([['a', '.', 'c', 'o', 'm']], [['t', '1']]) := by decide
  have hurl : refs_calculate_sklearn_jaccard
      ([['a', '.', 'c', 'o', 'm']] : List (List Char)) [['a', '.', 'c', 'o', 'm']]
      = 1 := by
    rw [refs_calc_eq, if_neg (by decide)]
    exact set_jaccard_self _ (by decide)
  have htitle : refs_calculate_sklearn_jaccard
      ([['t', '1']] : List (List Char)) [['t', '2']] = 0 := by
    rw [refs_calc_eq, if_neg (by decide), set_jaccard,
      show ((([['t', '1']] : List (List Char)).toFinset
        ∩ ([['t', '2']] : List (List Char)).toFinset).card) = 0 from by decide,
      Nat.cast_zero, zero_div]
  refine ⟨fun cs g t => ?_, ?_, ?_, ?_⟩
  · simp only [refs_single_turn_score]
  · simp only [hg, ht]
    exact hurl
  · simp only [hg, ht]
    exact htitle
  · simp only [refs_single_turn_score, hg, ht]
    rw [hurl, htitle]
    norm_num

/-- C6 counterexample: with `max_tokens = 1` (character budget 4) the
9-character all-`a` input is longer than the budget, yet the ellipsis
branch returns 7 characters, which exceeds `max_tokens * 4`: the claimed
bound fails. -/
theorem claim_C6_counterexample :
    ("aaaaaaaaa".toList).length > 1 * 4 ∧
      (truncate_context ("aaaaaaaaa".toList) 1).length > 1 * 4 := by decide

/-- C6 amended: for every text longer than `max_tokens * 4` characters,
`truncate_context` returns at most `max_tokens * 4 + 3` characters:
either it stays within the `max_tokens * 4` budget (the sentence-boundary
cut), or it is exactly the hard cut at the budget with the 3-character
ellipsis marker appended. -/
theorem claim_C6_truncation_bound (text : List Char) (max_tokens : Nat)
    (h : max_tokens * 4 < text.length) :
    (truncate_context text max_tokens).length ≤ max_tokens * 4 + 3 ∧
      ((truncate_context text max_tokens).length ≤ max_tokens * 4 ∨
        truncate_context text max_tokens
          = text.take (max_tokens * 4) ++ ['.', '.', '.']) := by
  have htext : text ≠ [] := by
    intro h0
    rw [h0] at h
    simp at h
  have hle : ¬ text.length ≤ max_tokens * 4 := not_le.mpr h
  simp only [truncate_context, if_neg htext, if_neg hle]
  rcases hlp : last_period_idx (text.take (max_tokens * 4)) with _ | lp
  · simp only [hlp]
    refine ⟨?_, Or.inr trivial⟩
    simp only [List.length_append, List.length_take, List.length_cons,
      List.length_nil]
    omega
  · simp only [hlp]
    by_cases hcond : 5 * lp > 4 * (max_tokens * 4)
    · rw [if_pos hcond]
      have hlen : ((text.take (max_tokens * 4)).take (lp + 1)).length
          ≤ max_tokens * 4 := by
        simp only [List.length_take]
        omega
      exact ⟨le_trans hlen (by omega), Or.inl hlen⟩
    · rw [if_neg hcond]
      refine ⟨?_, Or.inr rfl⟩
      simp only [List.length_append, List.length_take, List.length_cons,
        List.length_nil]
      omega

/-- Witness for the amended C6 at the 9-character all-`a` input with
`max_tokens = 1`. -/
theorem claim_C6_witness :
    1 * 4 < ("aaaaaaaaa".toList).length ∧
      ((truncate_context ("aaaaaaaaa".toList) 1).length ≤ 1 * 4 + 3 ∧
        ((truncate_context ("aaaaaaaaa".toList) 1).length ≤ 1 * 4 ∨
          truncate_context ("aaaaaaaaa".toList) 1
            = ("aaaaaaaaa".toList).take (1 * 4) ++ ['.', '.', '.'])) :=
  ⟨by decide, claim_C6_truncation_bound ("aaaaaaaaa".toList) 1 (by decide)⟩

/-- C9: under the default normalization the delimited-text score of
`"Tag"` against `"tag"` is 1.0, and the pipe-delimited tags metric scores
`"NLP|ML"` against `"ml|nlp"` as 1.0: token case and token order do not
matter. -/
theorem claim_C9_normalization_invariance :
    tags_single_turn_score {} ("Tag".toList) ("tag".toList) = 1 ∧
      tags_single_turn_score create_tags_jaccard_metric
        ("NLP|ML".toList) ("ml|nlp".toList) = 1 := by
  constructor
  · unfold tags_single_turn_score
    rw [show preprocess_text {} ("tag".toList) = [['t', 'a', 'g']] from by decide,
      show preprocess_text {} ("Tag".toList) = [['t', 'a', 'g']] from by decide,
      tags_calc_eq, if_neg (by decide), if_neg (by decide)]
    exact set_jaccard_self _ (by decide)
  · unfold tags_single_turn_score
    rw [show preprocess_text create_tags_jaccard_metric ("ml|nlp".toList)
        = [['m', 'l'], ['n', 'l', 'p']] from by decide,
      show preprocess_text create_tags_jaccard_metric ("NLP|ML".toList)
        = [['n', 'l', 'p'], ['m', 'l']] from by decide,
      tags_calc_eq, if_neg (by decide), if_neg (by decide), set_jaccard,
      show ((([['m', 'l'], ['n', 'l', 'p']] : List (List Char)).toFinset
        ∩ ([['n', 'l', 'p'], ['m', 'l']] : List (List Char)).toFinset).card)
        = 2 from by decide,
      show ((([['m', 'l'], ['n', 'l', 'p']] : List (List Char)).toFinset
        ∪ ([['n', 'l', 'p'], ['m', 'l']] : List (List Char)).toFinset).card)
        = 2 from by decide]
    norm_num

/-- C10 counterexample: the well-formed record `{"url": "a.com"}` alone
contributes its URL token, but placed after a record whose `url` holds a
non-string value it contributes nothing: the record-level exception
aborts the whole loop, so a malformed entry does prevent later
well-formed records from contributing. -/
theorem claim_C10_counterexample :
    parse_references false (.list [.dict (some (.jstr ("a.com".toList))) none])
        = ([['a', '.', 'c', 'o', 'm']], []) ∧
      parse_references false (.list [.dict (some .jnonstr) none,
        .dict (some (.jstr ("a.com".toList))) none]) = ([], []) := by decide

/-- C10 amended: non-record entries and records missing both fields are
skipped and parsing continues; a record with absent-or-string fields
contributes its trimmed, normalized url and title tokens exactly when
they are non-empty; but a record holding a non-string `url` (or `title`)
value stops the parse at that record, keeping only what accumulated
before it. -/
theorem claim_C10_parse_contributions (cs : Bool) (refs rest : List RefEntry)
    (urls titles : List (List Char)) (u t : List Char) (tv : Option JVal) :
    (parse_references cs (.list refs) = extract_refs cs refs [] []) ∧
    (extract_refs cs (.nondict :: rest) urls titles
        = extract_refs cs rest urls titles) ∧
    (extract_refs cs (.dict none none :: rest) urls titles
        = extract_refs cs rest urls titles) ∧
    (extract_refs cs (.dict (some (.jstr u)) (some (.jstr t)) :: rest) urls titles
        = extract_refs cs rest
            (if py_strip u ≠ [] then urls ++ [norm_token cs (py_strip u)]
              else urls)
            (if py_strip t ≠ [] then titles ++ [norm_token cs (py_strip t)]
              else titles)) ∧
    (extract_refs cs (.dict (some .jnonstr) tv :: rest) urls titles
        = (urls, titles)) ∧
    (extract_refs cs (.dict (some (.jstr u)) (some .jnonstr) :: rest) urls titles
        = ((if py_strip u ≠ [] then urls ++ [norm_token cs (py_strip u)]
            else urls), titles)) := by
  refine ⟨rfl, rfl, ?_, rfl, rfl, rfl⟩
  simp [extract_refs, get_stripped]

end Ragas
